import Mathlib

/-!
Shallow embedding of the operator scripts of the Roo Autonomous AI
Development Framework repository:

* `scripts/audit_autonomous_actions.py` (class `ActionsAuditor`)
* `scripts/validate_config.py` (class `ConfigValidator`)
* `scripts/generate_sprint_report.py` (class `ReportGenerator`)

Pure string manipulation (`str.lower`, `str.replace`, `str.split`,
`str.join`, `str.strip`, substring tests) is translated to functions on
`List Char` / `String`.  File-system interaction is abstracted into
explicit environment records: each field describes the outcome the script
observes when it checks for, opens, or parses one of the fixed input
files.  Counters and anomaly lists are threaded explicitly.
-/

namespace Roo

/-! ## Python string primitives -/

/-- The characters of the literal marker `"remediation:"` (the lower-cased
form used by `_check_task_loops`). -/
def markerChars : List Char := "remediation:".toList

/-- Python's `pat in s` substring test on character lists: `true` iff `pat`
occurs contiguously in the list. -/
def containsPat (pat : List Char) : List Char → Bool
  | [] => pat.isEmpty
  | c :: cs => pat.isPrefixOf (c :: cs) || containsPat pat cs

/-- Helper for `stripMarker`: Python's `s.replace("remediation:", "")`.
`skip` counts characters of an already-matched occurrence that still have
to be dropped; matching continues after the end of a removed occurrence
(left-to-right, non-overlapping), exactly as `str.replace` scans. -/
def stripMarkerAux : List Char → Nat → List Char
  | [], _ => []
  | _ :: cs, Nat.succ k => stripMarkerAux cs k
  | c :: cs, 0 =>
    if markerChars.isPrefixOf (c :: cs) then stripMarkerAux cs (markerChars.length - 1)
    else c :: stripMarkerAux cs 0

/-- Python's `s.replace("remediation:", "")` on a character list. -/
def stripMarker (l : List Char) : List Char := stripMarkerAux l 0

/-- Helper for `words`: Python's `s.split()` (split on whitespace runs,
dropping empty pieces).  `acc` holds the reversed characters of the word
currently being scanned. -/
def wordsAux : List Char → List Char → List (List Char)
  | [], acc => if acc.isEmpty then [] else [acc.reverse]
  | c :: cs, acc =>
    if c.isWhitespace then
      if acc.isEmpty then wordsAux cs [] else acc.reverse :: wordsAux cs []
    else wordsAux cs (c :: acc)

/-- Python's `s.split()` on a character list. -/
def words (l : List Char) : List (List Char) := wordsAux l []

/-- Python's `' '.join(ws)` on character-list words. -/
def joinWords : List (List Char) → List Char
  | [] => []
  | [w] => w
  | w :: ws => w ++ ' ' :: joinWords ws

/-- Title normalization from `ActionsAuditor._check_task_loops`
(`audit_autonomous_actions.py` lines 111-113):
`' '.join(title.lower().replace('remediation:', '').split()[:4])`.
`Char.toLower` matches Python `str.lower` on the ASCII titles involved. -/
def normalizeTitle (s : String) : String :=
  String.mk (joinWords ((words (stripMarker (s.toList.map Char.toLower))).take 4))

/-- Python's `s.strip()` (remove leading and trailing whitespace). -/
def pyStrip (s : String) : String :=
  String.mk (((s.toList.dropWhile Char.isWhitespace).reverse.dropWhile
    Char.isWhitespace).reverse)

/-- Helper for `firstDedup`: keep the first occurrence of every element,
in first-occurrence order (the iteration order of a Python
`collections.Counter` over its keys). -/
def firstDedupAux {α : Type} [DecidableEq α] (seen : List α) : List α → List α
  | [] => []
  | a :: l =>
    if a ∈ seen then firstDedupAux seen l else a :: firstDedupAux (a :: seen) l

/-- The distinct elements of a list in first-occurrence order. -/
def firstDedup {α : Type} [DecidableEq α] (l : List α) : List α := firstDedupAux [] l

/-! ## Action Auditor (`audit_autonomous_actions.py`)

A task carries many JSON fields; the auditor reads only `assigned_to` and
`title`, each of which may be absent (`task.get(...)`). -/

structure Task where
  assigned_to : Option String
  title : Option String
  deriving DecidableEq

/-- The three task buckets of `workflow-state.json`. -/
structure WorkflowState where
  pending_tasks : List Task
  active_tasks : List Task
  completed_tasks : List Task
  deriving DecidableEq

/-- `run_audit` line 70-72: the concatenation of the three buckets. -/
def allTasks (ws : WorkflowState) : List Task :=
  ws.pending_tasks ++ ws.active_tasks ++ ws.completed_tasks

/-- `_check_high_intervention_rate` line 89. -/
def oversightAgents : List String :=
  ["quality-assurance-coordinator", "technical-debt-manager"]

/-- `task.get('title', '')`. -/
def titleOrEmpty (t : Task) : String := t.title.getD ""

/-- The intervention-task predicate of `_check_high_intervention_rate`
lines 90-94: `task.get('assigned_to') in oversight_agents or
"Remediation:" in task.get('title', '')`.  A missing `assigned_to` is
Python `None`, and `None in oversight_agents` is `False`. -/
def isInterventionTask (t : Task) : Bool :=
  (match t.assigned_to with
   | some a => oversightAgents.contains a
   | none => false)
  || containsPat "Remediation:".toList (titleOrEmpty t).toList

/-- The filtered intervention-task list of `_check_high_intervention_rate`. -/
def interventionTasks (tasks : List Task) : List Task :=
  tasks.filter isInterventionTask

/-- `Counter(task.get('assigned_to') for task in intervention_tasks)[a]`:
how many intervention tasks have `assigned_to = a` (`a = none` is the
Python key `None`). -/
def interventionCount (tasks : List Task) (a : Option String) : Nat :=
  ((interventionTasks tasks).map Task.assigned_to).count a

/-- An anomaly appended to `self.anomalies`.  The `details` string of the
source embeds exactly the agent (resp. normalized title) and the count,
which is what this constructor records; `type`, `details` and
`recommendation` are determined by these fields. -/
inductive Anomaly where
  | highInterventionRate (agent : Option String) (count : Nat)
  | potentialTaskLoop (title : String) (count : Nat)
  deriving DecidableEq

/-- The agent a High Intervention Rate anomaly names, if any. -/
def anomalyAgent : Anomaly → Option (Option String)
  | .highInterventionRate a _ => some a
  | .potentialTaskLoop _ _ => none

/-- The normalized title a Potential Task Loop anomaly names, if any. -/
def anomalyTitle : Anomaly → Option String
  | .highInterventionRate _ _ => none
  | .potentialTaskLoop t _ => some t

/-- `ActionsAuditor._check_high_intervention_rate` (lines 87-104): one
anomaly per `Counter` key whose count strictly exceeds the threshold,
iterated in first-occurrence order. -/
def checkHighInterventionRate (tasks : List Task) (T : Nat) : List Anomaly :=
  let counted := (interventionTasks tasks).map Task.assigned_to
  (firstDedup counted).filterMap fun k =>
    if T < counted.count k then some (.highInterventionRate k (counted.count k))
    else none

/-- The multiset of normalized titles over all tasks
(`_check_task_loops` lines 109-114). -/
def normalizedTitles (tasks : List Task) : List String :=
  tasks.map fun t => normalizeTitle (titleOrEmpty t)

/-- `Counter(normalized_titles)[key]`. -/
def loopKeyCount (tasks : List Task) (key : String) : Nat :=
  (normalizedTitles tasks).count key

/-- `ActionsAuditor._check_task_loops` (lines 106-124). -/
def checkTaskLoops (tasks : List Task) (L : Nat) : List Anomaly :=
  let titles := normalizedTitles tasks
  (firstDedup titles).filterMap fun k =>
    if L < titles.count k then some (.potentialTaskLoop k (titles.count k))
    else none

/-- What `run_audit` observes about `workflow-state.json`. -/
inductive WorkflowRead where
  | absent          -- `os.path.exists` is false
  | ioError         -- `open` raises an OSError
  | parseError      -- `json.load` raises
  | ok (ws : WorkflowState)
  deriving DecidableEq

/-- Outcome of one auditor invocation. -/
inductive AuditOutcome where
  | nameErrorCrash                      -- uncaught NameError (see `run_audit`)
  | missingFile                         -- error printed, method returns normally
  | clean                               -- "No tasks found to audit"
  | report (anomalies : List Anomaly)   -- audit summary printed
  | unexpectedError                     -- caught by `except Exception`, `sys.exit(1)`
  deriving DecidableEq

/-- The `try` block of `ActionsAuditor.run_audit` (lines 62-85), i.e. what
the method would do from its second statement on. -/
def auditTryBlock (r : WorkflowRead) (T L : Nat) : AuditOutcome :=
  match r with
  | .absent => .missingFile
  | .ioError => .unexpectedError
  | .parseError => .unexpectedError
  | .ok ws =>
    let tasks := allTasks ws
    if tasks.isEmpty then .clean
    else .report (checkHighInterventionRate tasks T ++ checkTaskLoops tasks L)

/-- `ActionsAuditor.run_audit` (lines 59-85).  Its first statement (line
61) calls `print_header`, which is neither defined nor imported in
`audit_autonomous_actions.py`, so every invocation raises `NameError`
before the `try` block is entered; the block modelled by `auditTryBlock`
is unreachable. -/
def run_audit (_r : WorkflowRead) (_T _L : Nat) : AuditOutcome :=
  .nameErrorCrash

/-- Process exit code of `python audit_autonomous_actions.py <name>`:
`sys.exit(1)` in the `except` branch, exit code 1 for an uncaught
exception, and the interpreter default 0 otherwise. -/
def auditorExitCode (r : WorkflowRead) (T L : Nat) : Nat :=
  match run_audit r T L with
  | .nameErrorCrash => 1
  | .unexpectedError => 1
  | _ => 0

/-- Exit code the auditor would produce if its `try` block were reached
(the intended behaviour, modulo the `print_header` slip). -/
def tryBlockExitCode (r : WorkflowRead) (T L : Nat) : Nat :=
  match auditTryBlock r T L with
  | .unexpectedError => 1
  | _ => 0

/-- `os.path.join("project", name, "control", "workflow-state.json")` from
`ActionsAuditor.__init__` (lines 51-52); for a relative `name` this is
plain concatenation with `/`, without any normalization or validation. -/
def auditor_workflow_file (name : String) : String :=
  "project/" ++ name ++ "/control/workflow-state.json"

/-- `__main__` of the auditor: builds the auditor from the raw
`project_name` (no validation of the name whatsoever) and calls
`run_audit` with the default thresholds 3 and 2.  The environment `r`
describes the file found at `auditor_workflow_file name`. -/
def auditor_main (_name : String) (r : WorkflowRead) : AuditOutcome :=
  run_audit r 3 2

/-! ## Config Validator (`validate_config.py`)

The environment records, for each fixed input file, what the validator
observes.  `os.path.isfile`/`isdir` (stage 1) and a later `open` are
separate observations: a file can pass the existence check and still fail
to open (permissions, replacement by a directory, deletion in between). -/

/-- Outcome of `open` + `f.read` on `.roomodes`. -/
inductive ReadRes (α : Type) where
  | ioError
  | ok (v : α)
  deriving DecidableEq

/-- The value found under the `agents` key of `capabilities.yaml`. -/
inductive AgentsVal where
  | strList (l : List String)   -- a YAML sequence of strings
  | scalar                      -- a non-list, non-iterable value
  deriving DecidableEq

/-- What `open` + `yaml.safe_load` yields for `capabilities.yaml`.  The
model covers mapping documents, sequence documents, scalar documents
(`None`, numbers — on which the `"agents" in data` probe raises
`TypeError`), YAML syntax errors, and I/O errors. -/
inductive CapRead where
  | ioError                          -- `open`/`read` raises (not a YAMLError)
  | yamlError                        -- `yaml.safe_load` raises `yaml.YAMLError`
  | scalarDoc                        -- parses to `None`/a number: `in` raises TypeError
  | listDoc (elems : List String)    -- parses to a list
  | dictDoc (agents : Option AgentsVal)  -- parses to a mapping; `agents` key value
  deriving DecidableEq

/-- What `open` + `yaml.safe_load` yields for `sprint.yaml`.  For the
required-keys probe `key not in data`, mapping keys and sequence elements
behave alike, so both are `doc keys`. -/
inductive SprintRead where
  | ioError
  | yamlError
  | scalarDoc                        -- `key not in None` raises TypeError
  | doc (keys : List String)
  deriving DecidableEq

/-- Combined outcome of `_validate_json_files` for the single
`(workflow-state.json, workflow_state_v2.schema.json)` pair: every failure
kind is caught inside the check. -/
inductive JsonCheck where
  | ok
  | jsonError         -- `json.JSONDecodeError`
  | schemaError       -- `jsonschema.ValidationError`
  | otherError        -- any other exception (I/O, ...)
  deriving DecidableEq

/-- Everything one run of `ConfigValidator` observes about the file
system.  `capRead`/`roomodesRead` are also used by stage 5, which re-reads
the same files (their contents are assumed stable within the run). -/
structure VEnv where
  roomodesExists : Bool
  projectDirExists : Bool
  controlDirExists : Bool
  schemaDirExists : Bool
  backlogYamlExists : Bool
  sprintYamlExists : Bool
  capabilitiesYamlExists : Bool
  workflowJsonExists : Bool
  qualityJsonExists : Bool
  backlogSchemaExists : Bool
  workflowSchemaExists : Bool
  roomodesRead : ReadRes (List String)    -- the raw lines of `.roomodes`
  capRead : CapRead
  sprintRead : SprintRead
  workflowCheck : JsonCheck
  deriving DecidableEq

/-- Stage 1, `_validate_file_existence` (lines 107-121): each missing path
adds one error via `_check_path`; the stage itself never raises. -/
def existenceMissing (e : VEnv) : Nat :=
  (if e.roomodesExists then 0 else 1) + (if e.projectDirExists then 0 else 1)
  + (if e.controlDirExists then 0 else 1) + (if e.schemaDirExists then 0 else 1)
  + (if e.backlogYamlExists then 0 else 1) + (if e.sprintYamlExists then 0 else 1)
  + (if e.capabilitiesYamlExists then 0 else 1) + (if e.workflowJsonExists then 0 else 1)
  + (if e.qualityJsonExists then 0 else 1) + (if e.backlogSchemaExists then 0 else 1)
  + (if e.workflowSchemaExists then 0 else 1)

/-- Stage 2, `_validate_roomodes` (lines 123-139): the whole body is in a
`try`/`except Exception`, so it always adds 0 or 1 and never raises.
`content.strip()` is empty iff every line strips to the empty string. -/
def roomodesAdded (e : VEnv) : Nat :=
  match e.roomodesRead with
  | .ioError => 1
  | .ok lines => if lines.all (fun s => pyStrip s == "") then 1 else 0

/-- Stage 3a, the `capabilities.yaml` half of `_validate_yaml_files`
(lines 144-158).  Only `yaml.YAMLError` is caught: `none` means an
exception escapes the check (I/O error at `open`; `TypeError` from
`"agents" in None`; `TypeError` from `data["agents"]` when the document is
a list containing the string `"agents"`).  `some k` means the check
completes after adding `k` errors. -/
def capAdded : CapRead → Option Nat
  | .ioError => none
  | .yamlError => some 1
  | .scalarDoc => none
  | .listDoc es => if es.contains "agents" then none else some 1
  | .dictDoc none => some 1
  | .dictDoc (some .scalar) => some 1
  | .dictDoc (some (.strList l)) => if l.isEmpty then some 1 else some 0

/-- Stage 3b, the `sprint.yaml` half of `_validate_yaml_files` (lines
160-176); the missing-key list triggers a single error increment. -/
def sprintAdded : SprintRead → Option Nat
  | .ioError => none
  | .yamlError => some 1
  | .scalarDoc => none
  | .doc keys =>
    if (["sprint_id", "goal", "status"].filter fun k => !(keys.contains k)).isEmpty
    then some 0 else some 1

/-- Stage 4, `_validate_json_files` (lines 178-211): every exception kind
is caught inside the loop body, adding one error. -/
def jsonAdded : JsonCheck → Nat
  | .ok => 0
  | _ => 1

/-- The agent-mode identifiers declared in `.roomodes`
(`_cross_reference_capabilities` line 218: the set of stripped non-empty
lines). -/
def definedModes (e : VEnv) : List String :=
  match e.roomodesRead with
  | .ioError => []
  | .ok lines => (lines.map pyStrip).filter fun s => s ≠ ""

/-- Stage 5, `_cross_reference_capabilities` (lines 213-238): the whole
body is in a `try`/`except Exception`.  Returns the reported violation
(the set of undefined agents, as a deduplicated list) if any, and the
number of errors added (0 or 1; a single increment regardless of how many
agents are undefined). -/
def crossOutcome (e : VEnv) : Option (List String) × Nat :=
  match e.roomodesRead with
  | .ioError => (none, 1)
  | .ok _ =>
    match e.capRead with
    | .dictDoc (some (.strList l)) =>
      let undef := firstDedup (l.filter fun a => !((definedModes e).contains a))
      if undef.isEmpty then (none, 0) else (some undef, 1)
    | .dictDoc none => (none, 0)      -- `caps.get("agents", [])` yields `[]`
    | _ => (none, 1)                  -- `.get`/`set()` raises; caught, one error

/-- The per-stage `self.errors` transformations of `run_validations`,
matching the `self.errors += 1` discipline of the source: each stage maps
the counter before it to the counter after it (a `none` stage result is
an exception escaping the stage, leaving the counter at its last value). -/
def roomodesStage (e : VEnv) (n : Nat) : Nat := n + roomodesAdded e

/-- Counter after stage 3a, or `none` if the check raised. -/
def capStage (e : VEnv) (n : Nat) : Option Nat :=
  match capAdded e.capRead with
  | none => none
  | some c => some (n + c)

/-- Counter after stage 3b, or `none` if the check raised. -/
def sprintStage (e : VEnv) (n : Nat) : Option Nat :=
  match sprintAdded e.sprintRead with
  | none => none
  | some c => some (n + c)

/-- Counter after stage 4 (never raises). -/
def jsonStage (e : VEnv) (n : Nat) : Nat := n + jsonAdded e.workflowCheck

/-- Counter after stage 5 (never raises). -/
def crossStage (e : VEnv) (n : Nat) : Nat := n + (crossOutcome e).2

/-- Result of one `run_validations` call. -/
inductive RunResult where
  | finished (ok : Bool) (errors : Nat)   -- the method returned `errors == 0`
  | aborted (errors : Nat)                -- an exception escaped a check
  deriving DecidableEq

/-- `ConfigValidator.run_validations` (lines 80-94): stage 1; early
`return False` if any path was missing; then stages 2-5 in order, each
threading the shared error counter; finally `return self.errors == 0`. -/
def run_validations (e : VEnv) : RunResult :=
  let n0 := existenceMissing e
  if 0 < n0 then .finished false n0
  else
    let n1 := roomodesStage e n0
    match capStage e n1 with
    | none => .aborted n1
    | some n2 =>
      match sprintStage e n2 with
      | none => .aborted n2
      | some n3 => let n5 := crossStage e (jsonStage e n3)
                   .finished (n5 == 0) n5

/-- `ok = true` iff the final counter is zero, whenever the run finishes. -/
def RunResult.okIffZero : RunResult → Prop
  | .finished ok n => ok = (n == 0)
  | .aborted _ => True

/-- Process exit code of `python validate_config.py <name>` (`__main__`,
lines 254-265): `sys.exit(0)` iff `run_validations` returned `True`;
`sys.exit(1)` on `False`; exit code 1 from the interpreter when the
uncaught exception of an aborted run propagates. -/
def validatorExitCode (e : VEnv) : Nat :=
  match run_validations e with
  | .finished true _ => 0
  | _ => 1

/-- `os.path.join("project", name)` from `ConfigValidator.__init__`
(line 75): plain concatenation, no normalization or validation. -/
def validator_project_dir (name : String) : String := "project/" ++ name

/-- `__main__` of the validator: the raw `project_name` flows into the
path strings only; it is never checked for traversal sequences or
existence before the stage-1 file probes run.  `e` describes the files at
the paths derived from `name`. -/
def validator_main (_name : String) (e : VEnv) : RunResult :=
  run_validations e

/-! ## Sprint Reporter (`generate_sprint_report.py`)

Only the load/error behaviour matters for the claims, so the parsed
payloads are abstracted to `Unit`. -/

/-- What `ReportGenerator._load_data` observes when opening and parsing
one input file. -/
inductive LoadRead (α : Type) where
  | missing        -- `open` raises `FileNotFoundError`
  | ioError        -- `open`/`read` raises another OSError
  | parseError     -- `yaml.safe_load` / `json.load` raises
  | ok (v : α)
  deriving DecidableEq

/-- The four inputs `_load_data` reads, in source order (lines 73-82). -/
structure ReporterEnv where
  projectDirExists : Bool                 -- used by `resolve_project_path`
  sprintRead : LoadRead Unit              -- control/sprint.yaml
  workflowRead : LoadRead Unit            -- control/workflow-state.json
  qualityRead : LoadRead Unit             -- control/quality-dashboard.json
  decisionLogRead : LoadRead Unit         -- memory-bank/decisionLog.md
  deriving DecidableEq

/-- The exception (if any) escaping `_load_data`. -/
inductive LoadOutcome where
  | ok
  | fileNotFound     -- a `FileNotFoundError` propagates
  | otherError       -- some other exception propagates
  deriving DecidableEq

/-- Exception produced by one read. -/
def loadStep {α : Type} : LoadRead α → LoadOutcome
  | .missing => .fileNotFound
  | .ioError => .otherError
  | .parseError => .otherError
  | .ok _ => .ok

/-- `ReportGenerator._load_data` (lines 70-82): the four files are opened
in order; the first exception propagates to `generate_report`. -/
def loadData (e : ReporterEnv) : LoadOutcome :=
  match loadStep e.sprintRead with
  | .ok =>
    match loadStep e.workflowRead with
    | .ok =>
      match loadStep e.qualityRead with
      | .ok => loadStep e.decisionLogRead
      | r => r
    | r => r
  | r => r

/-- Outcome of `ReportGenerator.generate_report` (lines 57-68).  The
source defines no `ReportGenerationError` type anywhere (even though the
repository's own test `tests/test_report_generation_exceptions.py`
imports one from this module): a missing file is caught as
`FileNotFoundError` and turned into a printed error plus `sys.exit(1)`;
every other exception is caught and turned into `sys.exit(1)` as well.
Hence the outcome type has no raised-`ReportGenerationError` case. -/
inductive ReportOutcome where
  | printedReport     -- `_load_data` then `_print_report` succeeded
  | exitMissingFile   -- caught `FileNotFoundError`, printed error, `sys.exit(1)`
  | exitUnexpected    -- caught other exception, `sys.exit(1)`
  deriving DecidableEq

/-- `ReportGenerator.generate_report`. -/
def generate_report (e : ReporterEnv) : ReportOutcome :=
  match loadData e with
  | .ok => .printedReport
  | .fileNotFound => .exitMissingFile
  | .otherError => .exitUnexpected

/-- Modelled from the spec: the function `resolve_project_path` of the
module `path_utils`, which the repository imports in
`generate_sprint_report.py` but whose source is not available here.  Per
the spec it resolves a raw project name to a canonical project root and
fails (raising `InvalidProjectPathError`) when the name contains
path-traversal sequences, resolves outside the permitted projects
directory, or does not exist on disk; in this model a traversal sequence
is an occurrence of `".."` (which is also what would make the name
resolve outside the projects directory), and on-disk existence is the
`projectDirExists` observation. -/
def resolve_project_path (name : String) (projectDirExists : Bool) : Option String :=
  if containsPat "..".toList name.toList || !projectDirExists then none
  else some name

/-- Result of one `python generate_sprint_report.py <name>` run. -/
inductive ReporterResult where
  | invalidPath                -- `InvalidProjectPathError` caught in `main`, exit 1
  | ran (o : ReportOutcome)
  deriving DecidableEq

/-- `main()` of the reporter (lines 144-162): resolve the project name
first; on failure print the error and `sys.exit(1)` without touching any
project file; otherwise run `generate_report`. -/
def reporter_main (name : String) (e : ReporterEnv) : ReporterResult :=
  match resolve_project_path name e.projectDirExists with
  | none => .invalidPath
  | some _ => .ran (generate_report e)

/-- Process exit code of the reporter. -/
def reporterExitCode (name : String) (e : ReporterEnv) : Nat :=
  match reporter_main name e with
  | .ran .printedReport => 0
  | _ => 1

/-! ## Concrete inputs used by scenario conjuncts, counterexamples and
witnesses -/

/-- Four tasks assigned to `quality-assurance-coordinator` (the C4
scenario). -/
def c4Tasks : List Task :=
  [⟨some "quality-assurance-coordinator", some "Fix A"⟩,
   ⟨some "quality-assurance-coordinator", some "Fix B"⟩,
   ⟨some "quality-assurance-coordinator", some "Fix C"⟩,
   ⟨some "quality-assurance-coordinator", some "Fix D"⟩]

/-- Three remediation tasks whose titles differ only after the fourth
token (the C5 scenario). -/
def c5Tasks : List Task :=
  [⟨none, some "Remediation: Fix lint errors in module X"⟩,
   ⟨none, some "Remediation: Fix lint errors in module Y"⟩,
   ⟨none, some "Remediation: Fix lint errors in module Z"⟩]

/-- A mixed workflow task list (C10 witness): four remediation-marker
tasks with no `assigned_to`, one ordinary assigned task without the
marker, and one task lacking both fields. -/
def c10Tasks : List Task :=
  [⟨none, some "Remediation: a"⟩, ⟨none, some "Remediation: b"⟩,
   ⟨none, some "Remediation: c"⟩, ⟨none, some "Remediation: d"⟩,
   ⟨some "sparc-orchestrator", some "Implement feature"⟩,
   ⟨none, none⟩]

/-- A fully valid validator environment. -/
def goodVEnv : VEnv :=
  { roomodesExists := true, projectDirExists := true, controlDirExists := true
    schemaDirExists := true, backlogYamlExists := true, sprintYamlExists := true
    capabilitiesYamlExists := true, workflowJsonExists := true
    qualityJsonExists := true, backlogSchemaExists := true
    workflowSchemaExists := true
    roomodesRead := .ok ["dev-agent"]
    capRead := .dictDoc (some (.strList ["dev-agent"]))
    sprintRead := .doc ["sprint_id", "goal", "status"]
    workflowCheck := .ok }

/-- A validator environment in which every required path exists but
opening `capabilities.yaml` in stage 3 raises an I/O error (e.g. the file
became unreadable between the stage-1 probe and the stage-3 `open`). -/
def c3Env : VEnv := { goodVEnv with capRead := .ioError }

/-- `goodVEnv` with the capabilities agents replaced by `ghost-agent`,
which `.roomodes` does not declare (the C8 scenario). -/
def c8Env : VEnv := { goodVEnv with capRead := .dictDoc (some (.strList ["ghost-agent"])) }

/-- The reporter environment of the repository's own exception test and
of the spec scenario: `sprint.yaml` present and parsable,
`workflow-state.json` and `quality-dashboard.json` absent. -/
def c1Env : ReporterEnv :=
  { projectDirExists := true, sprintRead := .ok (), workflowRead := .missing
    qualityRead := .missing, decisionLogRead := .ok () }

/-- The `capabilities.yaml` outcomes on which `_validate_yaml_files` does
not leak an exception: YAML syntax errors are caught, and mapping
documents complete the structural check; I/O errors, scalar documents and
list documents containing the string `"agents"` make the check raise. -/
def capBenign : CapRead → Bool
  | .ioError => false
  | .scalarDoc => false
  | .listDoc es => !(es.contains "agents")
  | .yamlError => true
  | .dictDoc _ => true

/-- The `sprint.yaml` outcomes on which `_validate_yaml_files` does not
leak an exception. -/
def sprintBenign : SprintRead → Bool
  | .ioError => false
  | .scalarDoc => false
  | .yamlError => true
  | .doc _ => true

/-! ## Helper lemmas: `firstDedup` -/

theorem mem_firstDedupAux {α : Type} [DecidableEq α] (x : α) (l : List α) :
    ∀ seen : List α, x ∈ firstDedupAux seen l ↔ x ∈ l ∧ x ∉ seen := by
  induction l with
  | nil => intro seen; simp [firstDedupAux]
  | cons a l ih =>
    intro seen
    by_cases h : a ∈ seen
    · simp only [firstDedupAux, h, if_true, ih, List.mem_cons]
      constructor
      · rintro ⟨h1, h2⟩; exact ⟨Or.inr h1, h2⟩
      · rintro ⟨h1, h2⟩
        rcases h1 with rfl | h1
        · exact absurd h h2
        · exact ⟨h1, h2⟩
    · simp only [firstDedupAux, h, if_false, List.mem_cons, ih]
      by_cases hxa : x = a
      · subst hxa; simp [h]
      · simp only [hxa, false_or]

theorem nodup_firstDedupAux {α : Type} [DecidableEq α] (l : List α) :
    ∀ seen : List α, (firstDedupAux seen l).Nodup := by
  induction l with
  | nil => intro seen; simp [firstDedupAux]
  | cons a l ih =>
    intro seen
    by_cases h : a ∈ seen
    · simpa [firstDedupAux, h] using ih seen
    · rw [show firstDedupAux seen (a :: l) = a :: firstDedupAux (a :: seen) l from by
        simp [firstDedupAux, h]]
      refine List.nodup_cons.mpr ⟨fun hmem => ?_, ih (a :: seen)⟩
      exact ((mem_firstDedupAux a l (a :: seen)).mp hmem).2 (List.mem_cons_self a seen)

theorem mem_firstDedup {α : Type} [DecidableEq α] (x : α) (l : List α) :
    x ∈ firstDedup l ↔ x ∈ l := by
  rw [firstDedup, mem_firstDedupAux]
  simp

theorem nodup_firstDedup {α : Type} [DecidableEq α] (l : List α) :
    (firstDedup l).Nodup := nodup_firstDedupAux l []

theorem firstDedupAux_eq_nil {α : Type} [DecidableEq α] (l : List α) :
    ∀ seen : List α, (∀ x ∈ l, x ∈ seen) → firstDedupAux seen l = [] := by
  induction l with
  | nil => intro seen _; rfl
  | cons a l ih =>
    intro seen h
    have ha : a ∈ seen := h a (List.mem_cons_self a l)
    simp only [firstDedupAux, ha, if_true]
    exact ih seen fun x hx => h x (List.mem_cons_of_mem _ hx)

/-- A non-empty list all of whose elements equal `a` dedups to `[a]`. -/
theorem firstDedup_const {α : Type} [DecidableEq α] (a : α) :
    ∀ l : List α, l ≠ [] → (∀ x ∈ l, x = a) → firstDedup l = [a] := by
  intro l hne hall
  match l with
  | [] => exact absurd rfl hne
  | b :: l =>
    have hb : b = a := hall b (List.mem_cons_self b l)
    subst hb
    show firstDedupAux [] (b :: l) = [b]
    rw [show firstDedupAux [] (b :: l) = b :: firstDedupAux [b] l from by
      simp [firstDedupAux]]
    rw [firstDedupAux_eq_nil l [b] fun x hx => by
      rw [hall x (List.mem_cons_of_mem _ hx)]; exact List.mem_cons_self b []]

/-! ## Helper lemmas: counting anomalies produced by a `Counter` loop -/

/-- Over a duplicate-free key list, the threshold loop of the two anomaly
checks emits exactly one anomaly with key `a` iff `a` is a key and its
count strictly exceeds the threshold. -/
theorem counter_loop_filter_length {K : Type} [DecidableEq K]
    (mk : K → Nat → Anomaly) (keyOf : Anomaly → Option K)
    (hkey : ∀ k c, keyOf (mk k c) = some k)
    (cnt : K → Nat) (T : Nat) (a : K) :
    ∀ ks : List K, ks.Nodup →
      ((ks.filterMap fun k => if T < cnt k then some (mk k (cnt k)) else none).filter
          (fun x => decide (keyOf x = some a))).length
        = if a ∈ ks ∧ T < cnt a then 1 else 0 := by
  intro ks
  induction ks with
  | nil => intro _; simp
  | cons k ks ih =>
    intro hnd
    have hnd' := List.nodup_cons.mp hnd
    by_cases hlt : T < cnt k
    · rw [show List.filterMap (fun k => if T < cnt k then some (mk k (cnt k)) else none)
            (k :: ks)
          = mk k (cnt k)
            :: List.filterMap (fun k => if T < cnt k then some (mk k (cnt k)) else none) ks
        from by rw [List.filterMap_cons]; simp [hlt]]
      by_cases hka : k = a
      · subst hka
        rw [List.filter_cons_of_pos (by simp [hkey])]
        have hne : ¬ (k ∈ ks ∧ T < cnt k) := by
          rintro ⟨hmem, _⟩; exact hnd'.1 hmem
        rw [List.length_cons, ih hnd'.2, if_neg hne]
        simp [List.mem_cons, hlt]
      · rw [List.filter_cons_of_neg (by simp [hkey, hka])]
        rw [ih hnd'.2]
        have hiff : (a ∈ ks ∧ T < cnt a) ↔ (a ∈ k :: ks ∧ T < cnt a) := by
          constructor
          · rintro ⟨h1, h2⟩; exact ⟨List.mem_cons_of_mem _ h1, h2⟩
          · rintro ⟨h1, h2⟩
            rcases List.mem_cons.mp h1 with rfl | h1
            · exact absurd rfl hka
            · exact ⟨h1, h2⟩
        rw [if_congr hiff rfl rfl]
    · rw [show List.filterMap (fun k => if T < cnt k then some (mk k (cnt k)) else none)
            (k :: ks)
          = List.filterMap (fun k => if T < cnt k then some (mk k (cnt k)) else none) ks
        from by rw [List.filterMap_cons]; simp [hlt]]
      rw [ih hnd'.2]
      have hiff : (a ∈ ks ∧ T < cnt a) ↔ (a ∈ k :: ks ∧ T < cnt a) := by
        constructor
        · rintro ⟨h1, h2⟩; exact ⟨List.mem_cons_of_mem _ h1, h2⟩
        · rintro ⟨h1, h2⟩
          rcases List.mem_cons.mp h1 with rfl | h1
          · exact absurd h2 hlt
          · exact ⟨h1, h2⟩
      rw [if_congr hiff rfl rfl]

/-- Every anomaly the threshold loop emits with key `a` is exactly
`mk a (cnt a)`, and then the threshold is exceeded. -/
theorem counter_loop_mem {K : Type} [DecidableEq K]
    (mk : K → Nat → Anomaly) (keyOf : Anomaly → Option K)
    (hkey : ∀ k c, keyOf (mk k c) = some k)
    (cnt : K → Nat) (T : Nat) (a : K) (ks : List K) :
    ∀ x ∈ ks.filterMap fun k => if T < cnt k then some (mk k (cnt k)) else none,
      keyOf x = some a → x = mk a (cnt a) ∧ T < cnt a := by
  intro x hx hkx
  rcases List.mem_filterMap.mp hx with ⟨k, _, hk⟩
  by_cases hlt : T < cnt k
  · rw [if_pos hlt] at hk
    have hxk : x = mk k (cnt k) := (Option.some_injective _ hk).symm
    subst hxk
    rw [hkey] at hkx
    have : k = a := Option.some_injective _ hkx
    subst this
    exact ⟨rfl, hlt⟩
  · rw [if_neg hlt] at hk; exact absurd hk (by simp)

/-! ## Helper lemmas: title normalization -/

theorem char_toNat_ofNat (n : Nat) (h : n.isValidChar) : (Char.ofNat n).toNat = n := by
  simp [Char.ofNat, Char.toNat, h, Char.ofNatAux, UInt32.toNat, BitVec.toNat_ofNatLt]

theorem toLower_eq (c : Char) :
    c.toLower = if c.toNat ≥ 65 ∧ c.toNat ≤ 90 then Char.ofNat (c.toNat + 32) else c := rfl

theorem toLower_toLower (c : Char) : c.toLower.toLower = c.toLower := by
  by_cases h : c.toNat ≥ 65 ∧ c.toNat ≤ 90
  · have hv : (c.toNat + 32).isValidChar := Or.inl (by omega)
    rw [toLower_eq c, if_pos h, toLower_eq, char_toNat_ofNat _ hv, if_neg (by omega)]
  · rw [toLower_eq c, if_neg h, toLower_eq c, if_neg h]

theorem map_eq_self_of_fixed {α : Type} (f : α → α) :
    ∀ l : List α, (∀ c ∈ l, f c = c) → l.map f = l := by
  intro l
  induction l with
  | nil => intro _; rfl
  | cons c cs ih =>
    intro h
    rw [List.map_cons, h c (List.mem_cons_self c cs),
      ih fun x hx => h x (List.mem_cons_of_mem _ hx)]

/-- Characters surviving `stripMarkerAux` come from the input. -/
theorem mem_of_mem_stripMarkerAux (c : Char) :
    ∀ (l : List Char) (k : Nat), c ∈ stripMarkerAux l k → c ∈ l := by
  intro l
  induction l with
  | nil => intro k h; simp [stripMarkerAux] at h
  | cons b bs ih =>
    intro k h
    match k with
    | Nat.succ j => exact List.mem_cons_of_mem _ (ih j h)
    | 0 =>
      rw [stripMarkerAux] at h
      by_cases hp : markerChars.isPrefixOf (b :: bs)
      · rw [if_pos hp] at h
        exact List.mem_cons_of_mem _ (ih _ h)
      · rw [if_neg hp] at h
        rcases List.mem_cons.mp h with rfl | h
        · exact List.mem_cons_self _ _
        · exact List.mem_cons_of_mem _ (ih 0 h)

/-- If the marker does not occur in `l`, `replace` leaves `l` unchanged. -/
theorem stripMarker_of_not_contains :
    ∀ l : List Char, containsPat markerChars l = false → stripMarker l = l := by
  intro l
  induction l with
  | nil => intro _; rfl
  | cons b bs ih =>
    intro h
    rw [containsPat, Bool.or_eq_false_iff] at h
    show stripMarkerAux (b :: bs) 0 = b :: bs
    rw [stripMarkerAux, if_neg (by rw [h.1]; exact Bool.false_ne_true)]
    rw [show stripMarkerAux bs 0 = stripMarker bs from rfl, ih h.2]

/-- `s.split()` words consumed from a run of non-whitespace characters. -/
theorem wordsAux_append_of_not_white :
    ∀ (w r acc : List Char), (∀ c ∈ w, c.isWhitespace = false) →
      wordsAux (w ++ r) acc = wordsAux r (w.reverse ++ acc) := by
  intro w
  induction w with
  | nil => intro r acc _; simp
  | cons c cs ih =>
    intro r acc h
    have hc : c.isWhitespace = false := h c (List.mem_cons_self c cs)
    rw [List.cons_append, wordsAux, if_neg (by rw [hc]; exact Bool.false_ne_true)]
    rw [ih r (c :: acc) fun x hx => h x (List.mem_cons_of_mem _ hx)]
    rw [List.reverse_cons, List.append_assoc]
    rfl

/-- Words delivered by `wordsAux` are non-empty and whitespace-free. -/
theorem wordsAux_sound :
    ∀ (l acc : List Char), (∀ c ∈ acc, c.isWhitespace = false) →
      ∀ w ∈ wordsAux l acc, w ≠ [] ∧ ∀ c ∈ w, c.isWhitespace = false := by
  intro l
  induction l with
  | nil =>
    intro acc hacc w hw
    rw [wordsAux] at hw
    by_cases he : acc.isEmpty
    · rw [if_pos he] at hw; exact absurd hw (List.not_mem_nil w)
    · rw [if_neg he] at hw
      rcases List.mem_cons.mp hw with rfl | hw
      · refine ⟨fun hnil => he ?_, fun c hc => hacc c (List.mem_reverse.mp hc)⟩
        rw [List.isEmpty_iff, ← List.reverse_eq_nil_iff, hnil]
      · exact absurd hw (List.not_mem_nil w)
  | cons b bs ih =>
    intro acc hacc w hw
    rw [wordsAux] at hw
    by_cases hb : b.isWhitespace
    · rw [if_pos hb] at hw
      by_cases he : acc.isEmpty
      · rw [if_pos he] at hw
        exact ih [] (by intro c hc; exact absurd hc (List.not_mem_nil c)) w hw
      · rw [if_neg he] at hw
        rcases List.mem_cons.mp hw with rfl | hw
        · refine ⟨fun hnil => he ?_, fun c hc => hacc c (List.mem_reverse.mp hc)⟩
          rw [List.isEmpty_iff, ← List.reverse_eq_nil_iff, hnil]
        · exact ih [] (by intro c hc; exact absurd hc (List.not_mem_nil c)) w hw
    · rw [if_neg hb] at hw
      refine ih (b :: acc) ?_ w hw
      intro c hc
      rcases List.mem_cons.mp hc with rfl | hc
      · exact Bool.eq_false_iff.mpr hb
      · exact hacc c hc

/-- Characters of `wordsAux` output words come from the input or the
accumulator. -/
theorem wordsAux_chars :
    ∀ (l acc : List Char), ∀ w ∈ wordsAux l acc, ∀ c ∈ w, c ∈ l ∨ c ∈ acc := by
  intro l
  induction l with
  | nil =>
    intro acc w hw c hc
    rw [wordsAux] at hw
    by_cases he : acc.isEmpty
    · rw [if_pos he] at hw; exact absurd hw (List.not_mem_nil w)
    · rw [if_neg he] at hw
      rcases List.mem_cons.mp hw with rfl | hw
      · exact Or.inr (List.mem_reverse.mp hc)
      · exact absurd hw (List.not_mem_nil w)
  | cons b bs ih =>
    intro acc w hw c hc
    rw [wordsAux] at hw
    by_cases hb : b.isWhitespace
    · rw [if_pos hb] at hw
      by_cases he : acc.isEmpty
      · rw [if_pos he] at hw
        rcases ih [] w hw c hc with h | h
        · exact Or.inl (List.mem_cons_of_mem _ h)
        · exact absurd h (List.not_mem_nil c)
      · rw [if_neg he] at hw
        rcases List.mem_cons.mp hw with rfl | hw
        · exact Or.inr (List.mem_reverse.mp hc)
        · rcases ih [] w hw c hc with h | h
          · exact Or.inl (List.mem_cons_of_mem _ h)
          · exact absurd h (List.not_mem_nil c)
    · rw [if_neg hb] at hw
      rcases ih (b :: acc) w hw c hc with h | h
      · exact Or.inl (List.mem_cons_of_mem _ h)
      · rcases List.mem_cons.mp h with rfl | h
        · exact Or.inl (List.mem_cons_self _ _)
        · exact Or.inr h

/-- Characters of `' '.join(ws)` are a space or come from some word. -/
theorem mem_joinWords :
    ∀ (ws : List (List Char)) (c : Char), c ∈ joinWords ws →
      c = ' ' ∨ ∃ w ∈ ws, c ∈ w := by
  intro ws
  induction ws with
  | nil => intro c hc; exact absurd hc (List.not_mem_nil c)
  | cons w ws ih =>
    intro c hc
    match ws with
    | [] => exact Or.inr ⟨w, List.mem_cons_self _ _, hc⟩
    | w' :: ws' =>
      rw [show joinWords (w :: w' :: ws') = w ++ ' ' :: joinWords (w' :: ws') from rfl]
        at hc
      rcases List.mem_append.mp hc with h | h
      · exact Or.inr ⟨w, List.mem_cons_self _ _, h⟩
      · rcases List.mem_cons.mp h with rfl | h
        · exact Or.inl rfl
        · rcases ih c h with h | ⟨u, hu, hcu⟩
          · exact Or.inl h
          · exact Or.inr ⟨u, List.mem_cons_of_mem _ hu, hcu⟩

/-- `' '.join` then `split()` recovers the word list, provided every word
is non-empty and whitespace-free. -/
theorem words_joinWords :
    ∀ ws : List (List Char),
      (∀ w ∈ ws, w ≠ [] ∧ ∀ c ∈ w, c.isWhitespace = false) →
      words (joinWords ws) = ws := by
  intro ws
  induction ws with
  | nil => intro _; rfl
  | cons w ws ih =>
    intro h
    have hw := h w (List.mem_cons_self w ws)
    have hwne : ¬ w.reverse.isEmpty = true := by
      rw [List.isEmpty_iff, List.reverse_eq_nil_iff]
      exact hw.1
    match ws with
    | [] =>
      show wordsAux (joinWords [w]) [] = [w]
      rw [show joinWords [w] = w from rfl, ← List.append_nil w,
        wordsAux_append_of_not_white w [] [] hw.2, List.append_nil, List.append_nil,
        wordsAux, if_neg hwne, List.reverse_reverse]
    | w' :: ws' =>
      show wordsAux (joinWords (w :: w' :: ws')) [] = w :: w' :: ws'
      rw [show joinWords (w :: w' :: ws') = w ++ ' ' :: joinWords (w' :: ws') from rfl]
      rw [wordsAux_append_of_not_white w _ [] hw.2, List.append_nil]
      rw [show wordsAux (' ' :: joinWords (w' :: ws')) w.reverse
            = if w.reverse.isEmpty then wordsAux (joinWords (w' :: ws')) []
              else w.reverse.reverse :: wordsAux (joinWords (w' :: ws')) [] from by
        rw [wordsAux, if_pos (by decide)]]
      rw [if_neg hwne, List.reverse_reverse]
      rw [show wordsAux (joinWords (w' :: ws')) [] = words (joinWords (w' :: ws')) from rfl]
      rw [ih fun u hu => h u (List.mem_cons_of_mem _ hu)]

/-- Conditional idempotence of the title normalization: if the normalized
title no longer contains the marker, normalizing again changes nothing. -/
theorem normalizeTitle_idem_of_no_marker (s : String)
    (h : containsPat markerChars (normalizeTitle s).toList = false) :
    normalizeTitle (normalizeTitle s) = normalizeTitle s := by
  have htk : ∀ w ∈ (words (stripMarker (s.toList.map Char.toLower))).take 4,
      w ≠ [] ∧ ∀ c ∈ w, c.isWhitespace = false := fun w hw =>
    wordsAux_sound _ [] (fun c hc => absurd hc (List.not_mem_nil c)) w
      (List.take_subset _ _ hw)
  have htoList : (normalizeTitle s).toList
      = joinWords ((words (stripMarker (s.toList.map Char.toLower))).take 4) := rfl
  have hfix : ∀ c ∈ (normalizeTitle s).toList, Char.toLower c = c := by
    intro c hc
    rw [htoList] at hc
    rcases mem_joinWords _ c hc with rfl | ⟨w, hw, hcw⟩
    · decide
    · rcases wordsAux_chars _ [] w (List.take_subset _ _ hw) c hcw with hcu | hcu
      · have hcl : c ∈ s.toList.map Char.toLower := mem_of_mem_stripMarkerAux c _ 0 hcu
        rcases List.mem_map.mp hcl with ⟨d, _, rfl⟩
        exact toLower_toLower d
      · exact absurd hcu (List.not_mem_nil c)
  rw [show normalizeTitle (normalizeTitle s)
      = String.mk (joinWords ((words (stripMarker ((normalizeTitle s).toList.map
          Char.toLower))).take 4)) from rfl]
  rw [map_eq_self_of_fixed _ _ hfix]
  rw [stripMarker_of_not_contains _ h]
  rw [htoList, words_joinWords _ htk, List.take_take, Nat.min_self]
  rfl

/-! ## Helper lemmas: validator counter -/

theorem run_validations_okIffZero (e : VEnv) : (run_validations e).okIffZero := by
  simp only [run_validations]
  split
  · rename_i h0
    simp only [RunResult.okIffZero]
    rw [show (existenceMissing e == 0) = false from by
      rw [beq_eq_false_iff_ne]; omega]
  · split
    · trivial
    · split
      · trivial
      · simp only [RunResult.okIffZero]

theorem roomodesStage_mono (e : VEnv) (n : Nat) : n ≤ roomodesStage e n :=
  Nat.le_add_right n _

theorem capStage_mono (e : VEnv) (n : Nat) : n ≤ (capStage e n).getD n := by
  simp only [capStage]
  cases capAdded e.capRead with
  | none => simp
  | some c => simp

theorem sprintStage_mono (e : VEnv) (n : Nat) : n ≤ (sprintStage e n).getD n := by
  simp only [sprintStage]
  cases sprintAdded e.sprintRead with
  | none => simp
  | some c => simp

theorem jsonStage_mono (e : VEnv) (n : Nat) : n ≤ jsonStage e n :=
  Nat.le_add_right n _

theorem crossStage_mono (e : VEnv) (n : Nat) : n ≤ crossStage e n :=
  Nat.le_add_right n _

/-! ## Helper lemmas: the two anomaly checks -/

/-- The `_check_high_intervention_rate` loop, counted per agent. -/
theorem checkHighInterventionRate_filter_length (tasks : List Task) (T : Nat)
    (a : Option String) :
    ((checkHighInterventionRate tasks T).filter
        (fun x => decide (anomalyAgent x = some a))).length
      = if T < interventionCount tasks a then 1 else 0 := by
  have hlen := counter_loop_filter_length Anomaly.highInterventionRate anomalyAgent
    (fun _ _ => rfl) (fun k => ((interventionTasks tasks).map Task.assigned_to).count k)
    T a (firstDedup ((interventionTasks tasks).map Task.assigned_to))
    (nodup_firstDedup _)
  beta_reduce at hlen
  rw [show checkHighInterventionRate tasks T
      = (firstDedup ((interventionTasks tasks).map Task.assigned_to)).filterMap
          (fun k => if T < ((interventionTasks tasks).map Task.assigned_to).count k
            then some (.highInterventionRate k
              (((interventionTasks tasks).map Task.assigned_to).count k))
            else none) from rfl]
  rw [hlen]
  have hiff : (a ∈ firstDedup ((interventionTasks tasks).map Task.assigned_to)
        ∧ T < ((interventionTasks tasks).map Task.assigned_to).count a)
      ↔ T < interventionCount tasks a := by
    constructor
    · exact And.right
    · intro hlt
      refine ⟨(mem_firstDedup _ _).mpr (List.count_pos_iff.mp ?_), hlt⟩
      have : 0 < interventionCount tasks a := by omega
      exact this
  by_cases hc : T < interventionCount tasks a
  · rw [if_pos (hiff.mpr hc), if_pos hc]
  · rw [if_neg fun hp => hc (hiff.mp hp), if_neg hc]

/-- Every anomaly `_check_high_intervention_rate` emits naming `a` is the
one with the agent's exact intervention count, above threshold. -/
theorem checkHighInterventionRate_mem (tasks : List Task) (T : Nat)
    (a : Option String) :
    ∀ x ∈ checkHighInterventionRate tasks T, anomalyAgent x = some a →
      x = .highInterventionRate a (interventionCount tasks a)
        ∧ T < interventionCount tasks a := by
  intro x hx hax
  exact counter_loop_mem Anomaly.highInterventionRate anomalyAgent (fun _ _ => rfl)
    (fun k => ((interventionTasks tasks).map Task.assigned_to).count k) T a
    (firstDedup ((interventionTasks tasks).map Task.assigned_to)) x hx hax

/-- The `_check_task_loops` loop, counted per normalized title. -/
theorem checkTaskLoops_filter_length (tasks : List Task) (L : Nat) (t : String) :
    ((checkTaskLoops tasks L).filter
        (fun x => decide (anomalyTitle x = some t))).length
      = if L < loopKeyCount tasks t then 1 else 0 := by
  have hlen := counter_loop_filter_length Anomaly.potentialTaskLoop anomalyTitle
    (fun _ _ => rfl) (fun k => (normalizedTitles tasks).count k)
    L t (firstDedup (normalizedTitles tasks)) (nodup_firstDedup _)
  beta_reduce at hlen
  rw [show checkTaskLoops tasks L
      = (firstDedup (normalizedTitles tasks)).filterMap
          (fun k => if L < (normalizedTitles tasks).count k
            then some (.potentialTaskLoop k ((normalizedTitles tasks).count k))
            else none) from rfl]
  rw [hlen]
  have hiff : (t ∈ firstDedup (normalizedTitles tasks)
        ∧ L < (normalizedTitles tasks).count t)
      ↔ L < loopKeyCount tasks t := by
    constructor
    · exact And.right
    · intro hlt
      refine ⟨(mem_firstDedup _ _).mpr (List.count_pos_iff.mp ?_), hlt⟩
      have : 0 < loopKeyCount tasks t := by omega
      exact this
  by_cases hc : L < loopKeyCount tasks t
  · rw [if_pos (hiff.mpr hc), if_pos hc]
  · rw [if_neg fun hp => hc (hiff.mp hp), if_neg hc]

/-- Every anomaly `_check_task_loops` emits naming `t` carries the exact
occurrence count of `t`, above threshold. -/
theorem checkTaskLoops_mem (tasks : List Task) (L : Nat) (t : String) :
    ∀ x ∈ checkTaskLoops tasks L, anomalyTitle x = some t →
      x = .potentialTaskLoop t (loopKeyCount tasks t) ∧ L < loopKeyCount tasks t := by
  intro x hx hax
  exact counter_loop_mem Anomaly.potentialTaskLoop anomalyTitle (fun _ _ => rfl)
    (fun k => (normalizedTitles tasks).count k) L t
    (firstDedup (normalizedTitles tasks)) x hx hax

/-! ## Claim theorems -/

/-- Claim C1.  On the spec scenario and the repository's own test input (a
project whose control directory lacks `workflow-state.json` and
`quality-dashboard.json` while `sprint.yaml` is present), the Sprint
Reporter's load raises a plain `FileNotFoundError`, which
`generate_report` catches and converts into a printed error plus
`sys.exit(1)`; no partial report is printed, but no `ReportGenerationError`
is raised either — `generate_sprint_report.py` defines no such type, even
though `tests/test_report_generation_exceptions.py` imports
`ReportGenerationError` from it and asserts it is raised.  The claim
matches the test's (and the spec's) intent; the code contradicts its own
test. -/
theorem C1_missing_file_exits_not_raises :
    loadData c1Env = .fileNotFound ∧ generate_report c1Env = .exitMissingFile :=
  ⟨rfl, rfl⟩

/-- Claim C4.  For every task list, threshold `T` and grouping key `a`
(an `assigned_to` value), `_check_high_intervention_rate` emits exactly
one High Intervention Rate anomaly naming `a` iff `a`'s intervention-task
count strictly exceeds `T` (so a count equal to `T` emits none), every
emitted anomaly naming `a` carries exactly that count, and on the spec
scenario — 4 tasks assigned to `quality-assurance-coordinator`, threshold
3 — exactly the one anomaly naming that agent with count 4 is emitted. -/
theorem C4_intervention_rate_threshold :
    (∀ (tasks : List Task) (T : Nat) (a : Option String),
      ((checkHighInterventionRate tasks T).filter
          (fun x => decide (anomalyAgent x = some a))).length
        = (if T < interventionCount tasks a then 1 else 0)
      ∧ ∀ x ∈ checkHighInterventionRate tasks T, anomalyAgent x = some a →
          x = .highInterventionRate a (interventionCount tasks a))
    ∧ checkHighInterventionRate c4Tasks 3
        = [.highInterventionRate (some "quality-assurance-coordinator") 4] := by
  refine ⟨fun tasks T a => ⟨checkHighInterventionRate_filter_length tasks T a,
    fun x hx hax => (checkHighInterventionRate_mem tasks T a x hx hax).1⟩, ?_⟩
  decide

/-- Witness for C4 at the spec scenario input. -/
theorem C4_witness :
    ((checkHighInterventionRate c4Tasks 3).filter
        (fun x => decide (anomalyAgent x
          = some (some "quality-assurance-coordinator")))).length
      = (if 3 < interventionCount c4Tasks (some "quality-assurance-coordinator")
         then 1 else 0)
    ∧ Anomaly.highInterventionRate (some "quality-assurance-coordinator") 4
        = .highInterventionRate (some "quality-assurance-coordinator")
            (interventionCount c4Tasks (some "quality-assurance-coordinator")) :=
  ⟨(C4_intervention_rate_threshold.1 c4Tasks 3
      (some "quality-assurance-coordinator")).1,
   (C4_intervention_rate_threshold.1 c4Tasks 3
      (some "quality-assurance-coordinator")).2
     (.highInterventionRate (some "quality-assurance-coordinator") 4)
     (by decide) (by decide)⟩

/-- Claim C5.  For every task list, loop threshold `L` and normalized key
`t`, `_check_task_loops` emits exactly one Potential Task Loop anomaly for
`t` iff the number of tasks (across all three buckets) whose normalized
title is `t` strictly exceeds `L`; every emitted anomaly for `t` carries
exactly that count; and on the spec scenario the three
`"Remediation: Fix lint errors in module X/Y/Z"` titles all normalize to
the one key `"fix lint errors in"`, which with `L = 2` yields exactly one
anomaly with count 3. -/
theorem C5_task_loop_threshold :
    (∀ (tasks : List Task) (L : Nat) (t : String),
      ((checkTaskLoops tasks L).filter
          (fun x => decide (anomalyTitle x = some t))).length
        = (if L < loopKeyCount tasks t then 1 else 0)
      ∧ ∀ x ∈ checkTaskLoops tasks L, anomalyTitle x = some t →
          x = .potentialTaskLoop t (loopKeyCount tasks t))
    ∧ normalizedTitles c5Tasks
        = ["fix lint errors in", "fix lint errors in", "fix lint errors in"]
    ∧ checkTaskLoops c5Tasks 2 = [.potentialTaskLoop "fix lint errors in" 3] := by
  refine ⟨fun tasks L t => ⟨checkTaskLoops_filter_length tasks L t,
    fun x hx hax => (checkTaskLoops_mem tasks L t x hx hax).1⟩, by decide, by decide⟩

/-- Witness for C5 at the spec scenario input. -/
theorem C5_witness :
    ((checkTaskLoops c5Tasks 2).filter
        (fun x => decide (anomalyTitle x = some "fix lint errors in"))).length
      = (if 2 < loopKeyCount c5Tasks "fix lint errors in" then 1 else 0)
    ∧ Anomaly.potentialTaskLoop "fix lint errors in" 3
        = .potentialTaskLoop "fix lint errors in"
            (loopKeyCount c5Tasks "fix lint errors in") :=
  ⟨(C5_task_loop_threshold.1 c5Tasks 2 "fix lint errors in").1,
   (C5_task_loop_threshold.1 c5Tasks 2 "fix lint errors in").2
     (.potentialTaskLoop "fix lint errors in" 3) (by decide) (by decide)⟩

/-- Counterexample to claim C6 as stated: normalization is not idempotent
on every string.  `"remremediation:ediation:"` contains one occurrence of
the marker; removing it re-creates the marker, so the first normalization
yields `"remediation:"` and the second yields `""`. -/
theorem C6_counterexample :
    ¬ (normalizeTitle (normalizeTitle "remremediation:ediation:")
        = normalizeTitle "remremediation:ediation:") := by decide

/-- Claim C6 (amended).  The title normalization is idempotent for every
input whose once-normalized form no longer contains the marker substring
`"remediation:"`; it is not idempotent on inputs (such as
`"remremediation:ediation:"`) where removing one marker occurrence splices
a new occurrence together. -/
theorem C6_normalize_idempotent (s : String)
    (h : containsPat markerChars (normalizeTitle s).toList = false) :
    normalizeTitle (normalizeTitle s) = normalizeTitle s :=
  normalizeTitle_idem_of_no_marker s h

/-- Witness for C6 at the spec scenario title. -/
theorem C6_witness :
    containsPat markerChars
        (normalizeTitle "Remediation: Fix lint errors in module X").toList = false
    ∧ normalizeTitle (normalizeTitle "Remediation: Fix lint errors in module X")
        = normalizeTitle "Remediation: Fix lint errors in module X" :=
  ⟨by decide, C6_normalize_idempotent "Remediation: Fix lint errors in module X"
    (by decide)⟩

/-- Claim C7.  Every validator check maps the shared error counter to a
value at least as large (each failure adds one, nothing ever decrements),
and whenever `run_validations` returns, its boolean result is `true`
exactly when the final counter is zero (including the early
`return False` after a failed existence stage). -/
theorem C7_error_counter_monotone_ok_iff_zero :
    (∀ (e : VEnv) (n : Nat), n ≤ roomodesStage e n)
    ∧ (∀ (e : VEnv) (n : Nat), n ≤ (capStage e n).getD n)
    ∧ (∀ (e : VEnv) (n : Nat), n ≤ (sprintStage e n).getD n)
    ∧ (∀ (e : VEnv) (n : Nat), n ≤ jsonStage e n)
    ∧ (∀ (e : VEnv) (n : Nat), n ≤ crossStage e n)
    ∧ (∀ e : VEnv, (run_validations e).okIffZero) :=
  ⟨roomodesStage_mono, capStage_mono, sprintStage_mono, jsonStage_mono,
   crossStage_mono, run_validations_okIffZero⟩

/-- Counterexample to claim C2 as stated: with the traversal name
`"../evil"` the Config Validator builds the raw path `project/../evil`,
runs its whole file-system validation to completion and returns an
ordinary result — it never fails with `InvalidProjectPath` (its code has
no such check at all), and likewise the Action Auditor derives its
workflow path from the raw name without validation (its run then dies on
the unrelated `print_header` `NameError`). -/
theorem C2_counterexample :
    validator_project_dir "../evil" = "project/../evil"
    ∧ validator_main "../evil" goodVEnv = .finished true 0
    ∧ auditor_workflow_file "../evil" = "project/../evil/control/workflow-state.json"
    ∧ auditor_main "../evil" (.ok ⟨[], [], []⟩) = .nameErrorCrash := by
  refine ⟨rfl, by decide, rfl, rfl⟩

/-- Claim C2 (amended).  Only the Sprint Reporter resolves and validates
the project name: its `main` fails with `InvalidProjectPath` before any
project file is read whenever the name contains a traversal sequence or
the project directory does not exist (the conclusion holds for every file
environment, i.e. independently of any project-file contents).  The
Config Validator and the Action Auditor never inspect the name: their
behaviour is identical for any two names. -/
theorem C2_only_reporter_validates (name : String) (e : ReporterEnv)
    (h : containsPat "..".toList name.toList = true ∨ e.projectDirExists = false) :
    reporter_main name e = .invalidPath
    ∧ (∀ (n1 n2 : String) (ve : VEnv), validator_main n1 ve = validator_main n2 ve)
    ∧ (∀ (n1 n2 : String) (r : WorkflowRead), auditor_main n1 r = auditor_main n2 r) := by
  refine ⟨?_, fun _ _ _ => rfl, fun _ _ _ => rfl⟩
  rcases h with h | h
  · have h' : containsPat ['.', '.'] name.data = true := h
    simp [reporter_main, resolve_project_path, h']
  · simp [reporter_main, resolve_project_path, h]

/-- Witness for C2 (amended) at a concrete traversal name. -/
theorem C2_witness :
    (containsPat "..".toList ("../evil").toList = true
      ∨ c1Env.projectDirExists = false)
    ∧ reporter_main "../evil" c1Env = .invalidPath :=
  ⟨Or.inl (by decide),
   (C2_only_reporter_validates "../evil" c1Env (Or.inl (by decide))).1⟩

/-- Counterexample to claim C3 as stated: in `c3Env` every required path
exists and `.roomodes` is fine, but opening `capabilities.yaml` inside
`_validate_yaml_files` raises an I/O error (that check catches only
`yaml.YAMLError`), so the exception escapes the check and aborts the whole
run with the counter still at 0 — the JSON-schema and cross-reference
checks never run. -/
theorem C3_counterexample :
    run_validations c3Env = .aborted 0 ∧ capAdded c3Env.capRead = none := by
  refine ⟨by decide, rfl⟩

/-- Claim C3 (amended).  After the existence stage, YAML syntax errors are
caught and counted inside the YAML check, and the roomodes, JSON-schema
and cross-reference checks catch every exception; but the YAML-structure
check leaks I/O errors and `TypeError`s (scalar documents; list documents
containing `"agents"`).  Whenever the two YAML reads avoid those leaking
outcomes, the run always finishes — no exception aborts it, whatever the
other checks observe. -/
theorem C3_per_check_isolation (e : VEnv)
    (hc : capBenign e.capRead = true) (hs : sprintBenign e.sprintRead = true) :
    (∃ b n, run_validations e = .finished b n)
    ∧ (e.capRead = .yamlError → capAdded e.capRead = some 1)
    ∧ (e.sprintRead = .yamlError → sprintAdded e.sprintRead = some 1) := by
  refine ⟨?_, fun h => by rw [h]; rfl, fun h => by rw [h]; rfl⟩
  have hcap : ∃ c, capAdded e.capRead = some c := by
    cases h : e.capRead with
    | ioError => rw [h] at hc; exact absurd hc (by decide)
    | scalarDoc => rw [h] at hc; exact absurd hc (by decide)
    | yamlError => exact ⟨1, rfl⟩
    | listDoc es =>
      rw [h] at hc
      rw [capAdded, if_neg ?_]
      · exact ⟨1, rfl⟩
      · rw [capBenign] at hc
        intro hmem
        rw [hmem] at hc
        exact absurd hc (by decide)
    | dictDoc a =>
      match a with
      | none => exact ⟨1, rfl⟩
      | some .scalar => exact ⟨1, rfl⟩
      | some (.strList l) =>
        rw [capAdded]
        by_cases he : l.isEmpty
        · rw [if_pos he]; exact ⟨1, rfl⟩
        · rw [if_neg he]; exact ⟨0, rfl⟩
  have hspr : ∃ c, sprintAdded e.sprintRead = some c := by
    cases h : e.sprintRead with
    | ioError => rw [h] at hs; exact absurd hs (by decide)
    | scalarDoc => rw [h] at hs; exact absurd hs (by decide)
    | yamlError => exact ⟨1, rfl⟩
    | doc keys =>
      rw [sprintAdded]
      by_cases he : (["sprint_id", "goal", "status"].filter
          fun k => !(keys.contains k)).isEmpty
      · rw [if_pos he]; exact ⟨0, rfl⟩
      · rw [if_neg he]; exact ⟨1, rfl⟩
  obtain ⟨c, hcv⟩ := hcap
  obtain ⟨d, hsv⟩ := hspr
  simp only [run_validations]
  split
  · exact ⟨false, existenceMissing e, rfl⟩
  · simp only [capStage, sprintStage, hcv, hsv]
    exact ⟨_, _, rfl⟩

/-- Witness for C3 (amended) at a fully benign environment. -/
theorem C3_witness :
    capBenign goodVEnv.capRead = true ∧ sprintBenign goodVEnv.sprintRead = true
    ∧ ∃ b n, run_validations goodVEnv = .finished b n :=
  ⟨by decide, by decide,
   (C3_per_check_isolation goodVEnv (by decide) (by decide)).1⟩

/-- Counterexample to claim C9 as stated: invoked on a project whose
workflow-state file exists, parses, and is anomaly-free (a success / no
anomalies case that the claim says exits 0), the Action Auditor exits 1,
because its very first statement calls the undefined `print_header` and
the resulting `NameError` escapes.  (Its missing-workflow-state invocation
also exits 1, but likewise via the `NameError`, not via a reported
missing-input error.) -/
theorem C9_counterexample :
    run_audit (.ok ⟨[], [], []⟩) 3 2 = .nameErrorCrash
    ∧ auditorExitCode (.ok ⟨[], [], []⟩) 3 2 = 1 := ⟨rfl, rfl⟩

/-- Claim C9 (amended).  The Config Validator exits 0 exactly on a fully
valid configuration and 1 otherwise; the Sprint Reporter exits 0 exactly
when the path resolves and all four inputs load; the Action Auditor,
however, exits 1 on every invocation (the `print_header` `NameError`),
and even its intended `try`-block behaviour would report a missing
workflow-state file and return normally — exit code 0, not 1. -/
theorem C9_exit_codes :
    (∀ e : VEnv, validatorExitCode e = 0 ↔ run_validations e = .finished true 0)
    ∧ (∀ (r : WorkflowRead) (T L : Nat), auditorExitCode r T L = 1)
    ∧ (∀ T L : Nat, auditTryBlock .absent T L = .missingFile
        ∧ tryBlockExitCode .absent T L = 0)
    ∧ (∀ (name : String) (e : ReporterEnv),
        reporterExitCode name e = 0 ↔ reporter_main name e = .ran .printedReport) := by
  refine ⟨?_, fun _ _ _ => rfl, fun _ _ => ⟨rfl, rfl⟩, ?_⟩
  · intro e
    rcases hres : run_validations e with ⟨ok, n⟩ | n
    · cases ok with
      | true =>
        have hok := run_validations_okIffZero e
        rw [hres] at hok
        have hok' : true = (n == 0) := hok
        have hn : n = 0 := by rwa [eq_comm, beq_iff_eq] at hok'
        subst hn
        simp [validatorExitCode, hres]
      | false => simp [validatorExitCode, hres]
    · simp [validatorExitCode, hres]
  · intro name e
    rcases hm : reporter_main name e with _ | o
    · simp [reporterExitCode, hm]
    · cases o with
      | printedReport => simp [reporterExitCode, hm]
      | exitMissingFile => simp [reporterExitCode, hm]
      | exitUnexpected => simp [reporterExitCode, hm]

/-- Claim C10.  For every workflow task list (mixed lists included) the
audit's intervention check is total on tasks lacking `assigned_to` or
`title`: a missing title is read as the empty string; a task without
`assigned_to` qualifies as an intervention task exactly when its title
carries the `"Remediation:"` marker (never via the oversight set, since
`None in oversight_agents` is false); all such unassigned intervention
tasks are grouped under the single `Counter` key `None`, whose count is
exactly the number of unassigned marker tasks; and for every task list
and threshold `T`, exactly one High Intervention Rate anomaly naming
`None` is emitted iff that count strictly exceeds `T`, carrying exactly
that count. -/
theorem C10_missing_fields_grouped_under_none :
    (∀ t : Task, t.title = none → titleOrEmpty t = "")
    ∧ (∀ t : Task, t.assigned_to = none →
        isInterventionTask t
          = containsPat "Remediation:".toList (titleOrEmpty t).toList)
    ∧ (∀ tasks : List Task,
        interventionCount tasks none
          = (tasks.filter fun t => t.assigned_to == none
              && containsPat "Remediation:".toList (titleOrEmpty t).toList).length)
    ∧ (∀ (tasks : List Task) (T : Nat),
        ((checkHighInterventionRate tasks T).filter
            (fun x => decide (anomalyAgent x = some (none : Option String)))).length
          = if T < interventionCount tasks none then 1 else 0)
    ∧ (∀ (tasks : List Task) (T : Nat),
        ∀ x ∈ checkHighInterventionRate tasks T, anomalyAgent x = some none →
          x = .highInterventionRate none (interventionCount tasks none)) := by
  refine ⟨?_, ?_, ?_, ?_, ?_⟩
  · intro t ht
    simp [titleOrEmpty, ht]
  · intro t ha
    simp [isInterventionTask, ha]
  · intro tasks
    show ((tasks.filter isInterventionTask).map Task.assigned_to).count none = _
    rw [List.count_eq_countP, List.countP_map, List.countP_eq_length_filter,
      List.filter_filter]
    rw [List.filter_congr ?_]
    intro t _
    cases ha : t.assigned_to with
    | none => simp [isInterventionTask, ha, Function.comp]
    | some a => simp [isInterventionTask, ha, Function.comp]
  · intro tasks T
    exact checkHighInterventionRate_filter_length tasks T none
  · intro tasks T x hx hax
    exact (checkHighInterventionRate_mem tasks T none x hx hax).1

/-- Witness for C10 at a mixed task list: four unassigned remediation
tasks, an ordinary assigned task, and a task with neither field, with
threshold 3. -/
theorem C10_witness :
    titleOrEmpty ⟨none, none⟩ = ""
    ∧ isInterventionTask (⟨none, none⟩ : Task)
        = containsPat "Remediation:".toList (titleOrEmpty ⟨none, none⟩).toList
    ∧ interventionCount c10Tasks none
        = (c10Tasks.filter fun t => t.assigned_to == none
            && containsPat "Remediation:".toList (titleOrEmpty t).toList).length
    ∧ ((checkHighInterventionRate c10Tasks 3).filter
          (fun x => decide (anomalyAgent x = some (none : Option String)))).length
        = (if 3 < interventionCount c10Tasks none then 1 else 0)
    ∧ Anomaly.highInterventionRate none 4
        = .highInterventionRate none (interventionCount c10Tasks none) :=
  ⟨C10_missing_fields_grouped_under_none.1 ⟨none, none⟩ rfl,
   C10_missing_fields_grouped_under_none.2.1 ⟨none, none⟩ rfl,
   C10_missing_fields_grouped_under_none.2.2.1 c10Tasks,
   C10_missing_fields_grouped_under_none.2.2.2.1 c10Tasks 3,
   C10_missing_fields_grouped_under_none.2.2.2.2 c10Tasks 3
     (.highInterventionRate none 4) (by decide) (by decide)⟩

/-- Claim C8.  Whenever the validator reaches stage 5 intact (all paths
exist; `.roomodes` is readable; `capabilities.yaml` parses to a mapping
with a string-list `agents`; the sprint check does not leak an exception)
and some capability agent `g` is not among the declared modes, the
cross-reference check adds exactly one error and reports exactly one
violation naming exactly the set of undefined identifiers, the overall
run finishes (no crash), and its result is invalid. -/
theorem C8_undefined_agents_cross_reference (e : VEnv) (agents : List String)
    (g : String) (lines : List String)
    (hex : existenceMissing e = 0)
    (hroom : e.roomodesRead = .ok lines)
    (hcap : e.capRead = .dictDoc (some (.strList agents)))
    (hspr : sprintAdded e.sprintRead ≠ none)
    (hg : g ∈ agents) (hnd : g ∉ definedModes e) :
    (crossOutcome e).2 = 1
    ∧ (∃ u, (crossOutcome e).1 = some u
        ∧ ∀ x, x ∈ u ↔ (x ∈ agents ∧ x ∉ definedModes e))
    ∧ ∃ n, run_validations e = .finished false n ∧ 0 < n := by
  have hanil : agents ≠ [] := List.ne_nil_of_mem hg
  have hane : agents.isEmpty = false := by
    cases agents with
    | nil => exact absurd rfl hanil
    | cons a as => rfl
  have hcapA : capAdded e.capRead = some 0 := by
    rw [hcap]
    simp only [capAdded]
    rw [if_neg (by simp [hane])]
  have hgfilter : g ∈ agents.filter (fun a => !((definedModes e).contains a)) := by
    rw [List.mem_filter]
    exact ⟨hg, by simp [hnd]⟩
  have hmem : g ∈ firstDedup (agents.filter fun a => !((definedModes e).contains a)) :=
    (mem_firstDedup _ _).mpr hgfilter
  have hundef : (firstDedup (agents.filter fun a =>
      !((definedModes e).contains a))).isEmpty = false := by
    cases hh : firstDedup (agents.filter fun a => !((definedModes e).contains a)) with
    | nil => rw [hh] at hmem; exact absurd hmem (List.not_mem_nil g)
    | cons b bs => rfl
  have hcross : crossOutcome e
      = (some (firstDedup (agents.filter fun a => !((definedModes e).contains a))),
         1) := by
    simp only [crossOutcome, hroom, hcap, hundef]
    simp
  refine ⟨by rw [hcross], ⟨firstDedup (agents.filter fun a =>
    !((definedModes e).contains a)), by rw [hcross], fun x => ?_⟩, ?_⟩
  · rw [mem_firstDedup, List.mem_filter]
    simp
  · cases hd : sprintAdded e.sprintRead with
    | none => exact absurd hd hspr
    | some d =>
      simp only [run_validations, hex, capStage, sprintStage, roomodesStage,
        jsonStage, crossStage, hcapA, hd, hcross]
      rw [if_neg (by omega)]
      refine ⟨0 + roomodesAdded e + 0 + d + jsonAdded e.workflowCheck + 1, ?_, by omega⟩
      rw [show ((0 + roomodesAdded e + 0 + d + jsonAdded e.workflowCheck + 1 == 0))
          = false from by rw [beq_eq_false_iff_ne]; omega]

/-- Witness for C8 at the ghost-agent scenario environment. -/
theorem C8_witness :
    existenceMissing c8Env = 0
    ∧ c8Env.roomodesRead = .ok ["dev-agent"]
    ∧ c8Env.capRead = .dictDoc (some (.strList ["ghost-agent"]))
    ∧ sprintAdded c8Env.sprintRead ≠ none
    ∧ "ghost-agent" ∈ ["ghost-agent"]
    ∧ "ghost-agent" ∉ definedModes c8Env
    ∧ (crossOutcome c8Env).2 = 1
    ∧ ∃ n, run_validations c8Env = .finished false n ∧ 0 < n := by
  refine ⟨by decide, rfl, rfl, by decide, by decide, by decide, ?_, ?_⟩
  · exact (C8_undefined_agents_cross_reference c8Env ["ghost-agent"] "ghost-agent"
      ["dev-agent"] (by decide) rfl rfl (by decide) (by decide) (by decide)).1
  · exact (C8_undefined_agents_cross_reference c8Env ["ghost-agent"] "ghost-agent"
      ["dev-agent"] (by decide) rfl rfl (by decide) (by decide) (by decide)).2.2

end Roo
